import Mathlib

/-!
Shallow embedding of the goup ephemeral-content store (src/main.go) and
verification of its specification claims.

Time is modelled as `Int` nanoseconds (Go `time.Time`/`time.Duration` at
nanosecond resolution); `time.Now().After(e)` is strict `e < now`.
The two SQLite tables are modelled as lists of records; the upload
directory as an association list from blob name to byte list.  Go's global
`math/rand` source is modelled parametrically: an abstract state `Nat`, a
step function advancing the state per draw, an output function extracting a
draw, and a seeding function `tseed` mapping a clock value to a fresh state
(`rand.Seed(time.Now().UnixNano())` replaces the state with `tseed now`,
discarding the previous state) — every theorem below holds for an arbitrary
deterministic generator, which Go's lagged-Fibonacci source is.
Database errors other than primary-key violation, and the HTTP/JSON
boundary, are out of scope per the spec.
-/

namespace Goup

/-- `time.Hour` in nanoseconds. -/
def hour : Int := 3600 * 1000000000

/-- Config from src/main.go lines 27-32: both default expiries are one hour. -/
structure Config where
  dbPath : String
  uploadDir : String
  fileExpiry : Int
  urlExpiry : Int

def config : Config :=
  { dbPath := "./data/database.db"
    uploadDir := "./data/uploads"
    fileExpiry := hour
    urlExpiry := hour }

/-- A row of the `files` table: `path TEXT PRIMARY KEY, filename TEXT, expires_at DATETIME`. -/
structure FileRecord where
  path : String
  filename : String
  expiresAt : Int
  deriving DecidableEq

/-- A row of the `urls` table: `id TEXT PRIMARY KEY, original_url TEXT, expires_at DATETIME`. -/
structure URLRecord where
  id : String
  originalURL : String
  expiresAt : Int
  deriving DecidableEq

/-- The server's persistent state: the two tables and the upload directory
(blob name to byte contents). -/
structure ServerState where
  files : List FileRecord
  urls : List URLRecord
  blobs : List (String × List Nat)
  deriving DecidableEq

/-- `allowedChars` from src/main.go line 47. -/
def allowedChars : List Char :=
  "abcdefghijklmnopqrstuvwxyzABCDEFGHIJKLMNOPQRSTUVWXYZ0123456789".data

/-- Write a blob: `os.Create` truncates/overwrites any existing file of that name. -/
def blobWrite (bs : List (String × List Nat)) (name : String) (content : List Nat) :
    List (String × List Nat) :=
  (name, content) :: bs.filter (fun b => !(b.1 == name))

/-- Look a blob up by name (`os.Stat` / `http.ServeFile`). -/
def lookupBlob (bs : List (String × List Nat)) (name : String) : Option (List Nat) :=
  (bs.find? (fun b => b.1 == name)).map (fun b => b.2)

/-- `os.Remove` of a blob. -/
def blobRemove (bs : List (String × List Nat)) (name : String) :
    List (String × List Nat) :=
  bs.filter (fun b => !(b.1 == name))

section Generator

variable (step out : Nat → Nat) (tseed : Int → Nat)

/-- The loop body of `generateRandomString`: draw `n` characters with
`allowedChars[rand.Intn(len(allowedChars))]`, threading the source state.
`rand.Intn 62` is modelled as `out s % 62`, which like Go's is always a
valid index. -/
def drawChars : Nat → Nat → List Char × Nat
  | 0, s => ([], s)
  | n + 1, s =>
    let c := allowedChars.getD (out s % allowedChars.length) 'a'
    let rest := drawChars n (step s)
    (c :: rest.1, rest.2)

/-- `generateRandomString` from src/main.go lines 271-278.  It begins with
`rand.Seed(time.Now().UnixNano())`, so the incoming source state `rngIn` is
overwritten by `tseed now` before any character is drawn.  Returns the
string and the source state left behind for the next caller. -/
def generateRandomString (rngIn : Nat) (now : Int) (len : Nat) : String × Nat :=
  let s0 := tseed now
  let r := drawChars step out len s0
  (String.mk r.1, r.2)

end Generator

/-- `os.IsPathSeparator` on Unix: only `/`. -/
def isPathSeparator (c : Char) : Bool := c == '/'

/-- Scanning loop of `filepath.Ext`: walk the path from the end; stop with
`""` at a path separator; at the first `.` return the suffix from it.  The
first argument is the reversed path, the accumulator the suffix scanned so
far in original order. -/
def extAux : List Char → List Char → String
  | [], _ => ""
  | c :: rest, acc =>
    if isPathSeparator c then ""
    else if c == '.' then String.mk (c :: acc)
    else extAux rest (c :: acc)

/-- `filepath.Ext` from Go's path/filepath. -/
def filepathExt (s : String) : String := extAux s.data.reverse []

/-- `unicode.IsSpace`: Latin-1 whitespace plus the White_Space property
above Latin-1. -/
def goIsSpace (c : Char) : Bool :=
  if c.toNat < 256 then
    c == '\t' || c == '\n' || c == Char.ofNat 11 || c == Char.ofNat 12 ||
      c == '\r' || c == ' ' || c == Char.ofNat 0x85 || c == Char.ofNat 0xA0
  else
    c.toNat == 0x1680 || (0x2000 ≤ c.toNat && c.toNat ≤ 0x200A) ||
      c.toNat == 0x2028 || c.toNat == 0x2029 || c.toNat == 0x202F ||
      c.toNat == 0x205F || c.toNat == 0x3000

/-- `strings.TrimSpace`: drop leading and trailing Unicode whitespace. -/
def trimSpace (s : String) : String :=
  String.mk (((s.data.dropWhile goIsSpace).reverse.dropWhile goIsSpace).reverse)

/-- Go's `mime.TypeByExtension` builtin table (lowercase extensions; system
mime.types additions are environment-dependent and not modelled). -/
def mimeTypeByExtension (ext : String) : String :=
  if ext == ".avif" then "image/avif"
  else if ext == ".css" then "text/css; charset=utf-8"
  else if ext == ".gif" then "image/gif"
  else if ext == ".htm" then "text/html; charset=utf-8"
  else if ext == ".html" then "text/html; charset=utf-8"
  else if ext == ".jpeg" then "image/jpeg"
  else if ext == ".jpg" then "image/jpeg"
  else if ext == ".js" then "text/javascript; charset=utf-8"
  else if ext == ".json" then "application/json"
  else if ext == ".mjs" then "text/javascript; charset=utf-8"
  else if ext == ".pdf" then "application/pdf"
  else if ext == ".png" then "image/png"
  else if ext == ".svg" then "image/svg+xml"
  else if ext == ".wasm" then "application/wasm"
  else if ext == ".webp" then "image/webp"
  else if ext == ".xml" then "text/xml; charset=utf-8"
  else ""

/-- Outcome of `handleFileDownload` as seen by the caller: the handler only
ever answers `http.NotFound` or serves the file — it has no server-error
response at all. -/
inductive DownloadOutcome
  | notFound
  | served (filename mimeType : String) (bytes : List Nat)
  deriving DecidableEq

/-- `handleFileDownload` from src/main.go lines 100-144.  `path` is
`r.URL.Path[1:]`; `strings.Contains(path, "/")` on a one-character needle is
character containment.  A database error and a missing row both take the
`err != nil` branch and are one outcome. -/
def handleFileDownload (st : ServerState) (path : String) (now : Int) :
    DownloadOutcome :=
  if path == "" || path.data.contains '/' || path.data.contains '\\' then .notFound
  else
    match st.files.find? (fun r0 => r0.path == path) with
    | none => .notFound
    | some r0 =>
      if r0.expiresAt < now then .notFound
      else
        match lookupBlob st.blobs path with
        | none => .notFound
        | some bytes =>
          let m := mimeTypeByExtension (filepathExt r0.filename)
          .served r0.filename (if m == "" then "application/octet-stream" else m) bytes

/-- Outcome of `handleFileUpload`: success JSON, `"Could not save file"`
(500, blob write failed), or `"Database error"` (500, insert failed). -/
inductive UploadOutcome
  | uploaded (id : String)
  | couldNotSave
  | databaseError
  deriving DecidableEq

section Handlers

variable (step out : Nat → Nat) (tseed : Int → Nat)

/-- `handleFileUpload` from src/main.go lines 146-205 (after the multipart
boundary): generate `randomName = generateRandomString(8) + filepath.Ext(filename)`,
create the blob file (`createOk` injects an `os.Create` failure; a failed
`io.Copy`, `copyOk = false`, leaves the created-but-unfilled file behind),
then insert the metadata row, which fails on a duplicate primary key.  All
`time.Now()` reads of one request are modelled at the single instant `now`.
Returns (outcome, state, rand source state). -/
def handleFileUpload (st : ServerState) (rngIn : Nat) (now : Int)
    (filename : String) (content : List Nat) (long : Bool)
    (createOk copyOk : Bool) : UploadOutcome × ServerState × Nat :=
  let g := generateRandomString step out tseed rngIn now 8
  let randomName := g.1 ++ filepathExt filename
  if !createOk then (.couldNotSave, st, g.2)
  else if !copyOk then
    (.couldNotSave, { st with blobs := blobWrite st.blobs randomName [] }, g.2)
  else
    let st1 := { st with blobs := blobWrite st.blobs randomName content }
    let expiresAt := now + (if long then 30 * 24 * hour else config.fileExpiry)
    if st1.files.any (fun r0 => r0.path == randomName) then
      (.databaseError, st1, g.2)
    else
      (.uploaded randomName,
       { st1 with
          files := st1.files ++ [{ path := randomName, filename := filename,
                                   expiresAt := expiresAt }] },
       g.2)

/-- Outcome of `handleURLShorten`: success JSON, `"Invalid input"` (400), or
`"Internal server error"` (500, insert failed). -/
inductive ShortenOutcome
  | shortened (id : String)
  | invalidInput
  | internalError
  deriving DecidableEq

/-- `handleURLShorten` from src/main.go lines 207-244 (after JSON decoding):
reject a whitespace-only URL, generate an 8-character id, insert with the
chosen TTL; the insert fails on a duplicate primary key. -/
def handleURLShorten (st : ServerState) (rngIn : Nat) (now : Int)
    (url : String) (long : Bool) : ShortenOutcome × ServerState × Nat :=
  if trimSpace url == "" then (.invalidInput, st, rngIn)
  else
    let g := generateRandomString step out tseed rngIn now 8
    let expiresAt := now + (if long then 30 * 24 * hour else config.urlExpiry)
    if st.urls.any (fun r0 => r0.id == g.1) then (.internalError, st, g.2)
    else
      (.shortened g.1,
       { st with urls := st.urls ++ [{ id := g.1, originalURL := url,
                                       expiresAt := expiresAt }] },
       g.2)

end Handlers

/-- Outcome of `handleShortURLRedirect`. -/
inductive RedirectOutcome
  | notFound
  | redirect (url : String)
  deriving DecidableEq

/-- `handleShortURLRedirect` from src/main.go lines 246-256: lookup, then
`err != nil || time.Now().After(expiresAt)` collapses to one NotFound. -/
def handleShortURLRedirect (st : ServerState) (id : String) (now : Int) :
    RedirectOutcome :=
  match st.urls.find? (fun r0 => r0.id == id) with
  | none => .notFound
  | some r0 => if r0.expiresAt < now then .notFound else .redirect r0.originalURL

/-- `handleStats` from src/main.go lines 258-269: two independent
`SELECT COUNT(*)` reads, one per table. -/
def handleStats (st : ServerState) : Nat × Nat :=
  (st.files.length, st.urls.length)

/-- Injectable storage failures for one sweeper iteration: the SELECT, each
`os.Remove`, and the two DELETEs can fail independently. -/
structure SweepFailures where
  queryFails : Bool
  removeFails : String → Bool
  deleteFilesFails : Bool
  deleteUrlsFails : Bool

/-- The no-failure injection. -/
def noSweepFailures : SweepFailures :=
  { queryFails := false, removeFails := fun _ => false,
    deleteFilesFails := false, deleteUrlsFails := false }

/-- Storage operations a sweeper iteration issues, in order. -/
inductive SweepOp
  | listExpired
  | removeBlob (path : String)
  | deleteFileRows
  | deleteURLRows
  deriving DecidableEq

/-- The blob-removal loop of `cleanupExpiredData`: `os.Remove` each listed
path; its error is discarded, so a failed removal leaves the blob and the
loop continues. -/
def removeExpiredBlobs (f : SweepFailures) :
    List String → List (String × List Nat) → List (String × List Nat)
  | [], bs => bs
  | p :: ps, bs =>
    removeExpiredBlobs f ps (if f.removeFails p then bs else blobRemove bs p)

/-- One iteration of `cleanupExpiredData` (src/main.go lines 82-98): SELECT
expired file paths; if the query succeeded, remove each blob and bulk-delete
the expired file rows; in every case bulk-delete the expired URL rows.  Every
error is ignored, so the iteration always completes with a state.  Also
returns the trace of storage operations issued, in order. -/
def cleanupIteration (st : ServerState) (now : Int) (f : SweepFailures) :
    ServerState × List SweepOp :=
  if f.queryFails then
    ({ st with
        urls := if f.deleteUrlsFails then st.urls
                else st.urls.filter (fun r0 => !(decide (r0.expiresAt ≤ now))) },
     [.listExpired, .deleteURLRows])
  else
    let expired := (st.files.filter (fun r0 => decide (r0.expiresAt ≤ now))).map
      (fun r0 => r0.path)
    let bs := removeExpiredBlobs f expired st.blobs
    let files2 := if f.deleteFilesFails then st.files
                  else st.files.filter (fun r0 => !(decide (r0.expiresAt ≤ now)))
    let urls2 := if f.deleteUrlsFails then st.urls
                 else st.urls.filter (fun r0 => !(decide (r0.expiresAt ≤ now)))
    ({ files := files2, urls := urls2, blobs := bs },
     .listExpired :: expired.map SweepOp.removeBlob ++ [.deleteFileRows, .deleteURLRows])

/-- `cleanupExpiredData`'s infinite `for` loop, fuel-indexed: iteration `k`
runs at clock `nows k` with failure injection `fails k`. -/
def cleanupExpiredData (nows : Nat → Int) (fails : Nat → SweepFailures) :
    Nat → ServerState → ServerState
  | 0, st => st
  | n + 1, st =>
    cleanupExpiredData (fun k => nows (k + 1)) (fun k => fails (k + 1)) n
      (cleanupIteration st (nows 0) (fails 0)).1

/-- A concrete generator instantiation for witnesses: state counts up by one
per draw and is emitted as the draw. -/
def idStep : Nat → Nat := fun s => s + 1

def idOut : Nat → Nat := fun s => s

def natSeed : Int → Nat := fun t => t.toNat

/-! ### Helper lemmas -/

theorem getD_mem {l : List Char} {i : Nat} (d : Char) (h : i < l.length) :
    l.getD i d ∈ l := by
  induction l generalizing i with
  | nil => simp at h
  | cons c cs ih =>
    cases i with
    | zero => simp [List.getD]
    | succ j =>
      have := ih (i := j) (by simpa using h)
      simp only [List.getD] at this ⊢
      exact List.mem_cons_of_mem _ this

theorem drawChars_length (step out : Nat → Nat) (n s : Nat) :
    (drawChars step out n s).1.length = n := by
  induction n generalizing s with
  | zero => rfl
  | succ m ih => simp [drawChars, ih]

theorem drawChars_mem (step out : Nat → Nat) (n s : Nat) :
    ∀ c ∈ (drawChars step out n s).1, c ∈ allowedChars := by
  induction n generalizing s with
  | zero => intro c hc; simp [drawChars] at hc
  | succ m ih =>
    intro c hc
    simp only [drawChars, List.mem_cons] at hc
    rcases hc with h | h
    · subst h
      exact getD_mem _ (Nat.mod_lt _ (by decide))
    · exact ih _ c h

theorem extAux_no_separator (l acc : List Char)
    (hacc : ∀ c ∈ acc, isPathSeparator c = false) :
    ∀ c ∈ (extAux l acc).data, isPathSeparator c = false := by
  induction l generalizing acc with
  | nil => intro c hc; simp [extAux] at hc
  | cons a rest ih =>
    intro c hc
    simp only [extAux] at hc
    split_ifs at hc with hsep hdot
    · simp at hc
    · have hc2 : c ∈ a :: acc := hc
      rcases List.mem_cons.mp hc2 with h | h
      · have ha : a = '.' := by simpa using hdot
        rw [h, ha]; decide
      · exact hacc c h
    · refine ih (a :: acc) ?_ c hc
      intro d hd
      rcases List.mem_cons.mp hd with h | h
      · subst h; simpa using hsep
      · exact hacc d h

theorem filepathExt_no_separator (s : String) :
    ∀ c ∈ (filepathExt s).data, isPathSeparator c = false :=
  extAux_no_separator _ [] (by intro c hc; simp at hc)

theorem dropWhile_eq_nil_of_all {p : Char → Bool} {l : List Char}
    (h : l.all p = true) : l.dropWhile p = [] := by
  induction l with
  | nil => rfl
  | cons c cs ih =>
    simp only [List.all_cons, Bool.and_eq_true] at h
    simp [List.dropWhile, h.1, ih h.2]

theorem trimSpace_eq_empty {url : String} (h : url.data.all goIsSpace = true) :
    trimSpace url = "" := by
  simp [trimSpace, dropWhile_eq_nil_of_all h]

theorem lookupBlob_blobWrite_self (bs : List (String × List Nat))
    (name : String) (content : List Nat) :
    lookupBlob (blobWrite bs name content) name = some content := by
  simp [lookupBlob, blobWrite, List.find?]

/-! ### Claims -/

/-- C3: the identifier generator is claimed to be seeded once per process,
so that two same-instant calls do not deterministically coincide.  The code
(src/main.go line 272) reseeds the shared source from the clock on every
call: for every deterministic source `(step, out, tseed)` — Go's included —
two calls at the same `UnixNano` instant return the same string and leave
the same source state, regardless of the source states `rng1`, `rng2` the
calls started from.  This proves the behaviour the claim rules out. -/
theorem C3_reseeded_every_call_same_instant_collides
    (step out : Nat → Nat) (tseed : Int → Nat)
    (now : Int) (len : Nat) (rng1 rng2 : Nat) :
    generateRandomString step out tseed rng1 now len
      = generateRandomString step out tseed rng2 now len := rfl

/-- C2 counterexample: a URL record whose `expires_at` is 100 is still
served by `handleShortURLRedirect` at read time exactly 100, because the
code tests `time.Now().After(expiresAt)` — strict inequality — so at
`t = expires_at` (hence `t ≥ expires_at`) the record does not resolve to
NotFound as the claim states. -/
theorem C2_counterexample_served_at_expiry_instant :
    (100 : Int) ≥ 100 ∧
    handleShortURLRedirect
        { files := [], urls := [{ id := "abc", originalURL := "https://example.com/x",
                                  expiresAt := 100 }], blobs := [] }
        "abc" 100
      = .redirect "https://example.com/x" := by
  constructor
  · decide
  · decide

/-- C2 (amended): a stored record resolves iff the read time is at most
`expires_at`, and returns NotFound iff the read time is strictly after
`expires_at`; the boundary instant `t = expires_at` is still live.  Expiry
is decided from the `now` of each individual read (the handlers take the
clock as an argument and consult the stored row every call — nothing is
cached). -/
theorem C2_amended_live_iff_at_most_expiry
    (st : ServerState) (fid uid : String) (t : Int)
    (fr : FileRecord) (ur : URLRecord) (bytes : List Nat)
    (hguard : (fid == "" || fid.data.contains '/' || fid.data.contains '\\') = false)
    (hf : st.files.find? (fun r0 => r0.path == fid) = some fr)
    (hb : lookupBlob st.blobs fid = some bytes)
    (hu : st.urls.find? (fun r0 => r0.id == uid) = some ur) :
    (handleFileDownload st fid t
        = .served fr.filename
            (if mimeTypeByExtension (filepathExt fr.filename) == ""
             then "application/octet-stream"
             else mimeTypeByExtension (filepathExt fr.filename)) bytes
      ↔ t ≤ fr.expiresAt) ∧
    (handleFileDownload st fid t = .notFound ↔ fr.expiresAt < t) ∧
    (handleShortURLRedirect st uid t = .redirect ur.originalURL ↔ t ≤ ur.expiresAt) ∧
    (handleShortURLRedirect st uid t = .notFound ↔ ur.expiresAt < t) := by
  have hdl : handleFileDownload st fid t
      = if fr.expiresAt < t then .notFound
        else .served fr.filename
            (if mimeTypeByExtension (filepathExt fr.filename) == ""
             then "application/octet-stream"
             else mimeTypeByExtension (filepathExt fr.filename)) bytes := by
    simp only [handleFileDownload, hguard, hf, hb]
    rfl
  have hrd : handleShortURLRedirect st uid t
      = if ur.expiresAt < t then .notFound else .redirect ur.originalURL := by
    simp only [handleShortURLRedirect, hu]
  by_cases hlt : fr.expiresAt < t <;> by_cases hlt2 : ur.expiresAt < t <;>
    simp [hdl, hrd, hlt, hlt2] <;> omega

/-- C8: a Shorten call whose URL is empty or consists only of Unicode
whitespace fails with InvalidInput before the identifier generator is
consulted and before any insert: the returned state and random-source state
are exactly the ones passed in. -/
theorem C8_whitespace_url_rejected_no_record
    (step out : Nat → Nat) (tseed : Int → Nat)
    (st : ServerState) (rngIn : Nat) (now : Int) (url : String) (long : Bool)
    (h : url.data.all goIsSpace = true) :
    handleURLShorten step out tseed st rngIn now url long
      = (.invalidInput, st, rngIn) := by
  simp [handleURLShorten, trimSpace_eq_empty h]

/-- C8 witness: the concrete three-space URL is rejected with the table and
source state untouched. -/
theorem C8_witness :
    ("   " : String).data.all goIsSpace = true ∧
    handleURLShorten idStep idOut natSeed ⟨[], [], []⟩ 7 0 "   " true
      = (.invalidInput, ⟨[], [], []⟩, 7) :=
  ⟨by decide,
   C8_whitespace_url_rejected_no_record idStep idOut natSeed ⟨[], [], []⟩ 7 0 "   " true
     (by decide)⟩

/-- C9: Stats is the pair of the two table row counts, computed as two
independent reads, counting every row whatever its `expires_at`; and after
3 uploads and 2 shortenings (none expired) it returns (3, 2), here computed
through the actual upload and shorten handlers. -/
theorem C9_stats_counts_all_rows
    (files : List FileRecord) (urls : List URLRecord)
    (blobs : List (String × List Nat)) :
    handleStats ⟨files, urls, blobs⟩ = (files.length, urls.length) ∧
    (let s0 : ServerState := ⟨[], [], []⟩
     let s1 := (handleFileUpload idStep idOut natSeed s0 0 0 "a.txt" [1] false true true).2.1
     let s2 := (handleFileUpload idStep idOut natSeed s1 0 10 "b.png" [2] false true true).2.1
     let s3 := (handleFileUpload idStep idOut natSeed s2 0 20 "c" [3] false true true).2.1
     let s4 := (handleURLShorten idStep idOut natSeed s3 0 30 "https://a" false).2.1
     let s5 := (handleURLShorten idStep idOut natSeed s4 0 40 "https://b" false).2.1
     handleStats s5 = (3, 2)) := by
  exact ⟨rfl, by decide⟩

/-- C5: ResolveFile collapses all four failure cases — malformed identifier
(empty or containing a separator), no row, row expired, and live row with
the blob missing — into the single outcome `.notFound`; the outcome type has
no server-error alternative and the four cases produce literally the same
value. -/
theorem C5_resolve_file_notfound_collapsed
    (st : ServerState) (path : String) (now : Int)
    (h : (path == "" || path.data.contains '/' || path.data.contains '\\') = true
       ∨ st.files.find? (fun r0 => r0.path == path) = none
       ∨ (∃ r0, st.files.find? (fun r1 => r1.path == path) = some r0 ∧ r0.expiresAt < now)
       ∨ (∃ r0, st.files.find? (fun r1 => r1.path == path) = some r0 ∧ now ≤ r0.expiresAt
            ∧ lookupBlob st.blobs path = none)) :
    handleFileDownload st path now = .notFound := by
  by_cases hg : (path == "" || path.data.contains '/' || path.data.contains '\\') = true
  · simp only [handleFileDownload, hg]; rfl
  · have hgf : (path == "" || path.data.contains '/' || path.data.contains '\\') = false := by
      simpa using hg
    rcases h with h | h | ⟨r0, hr, hexp⟩ | ⟨r0, hr, hle, hblob⟩
    · exact absurd h hg
    · simp [handleFileDownload, hgf, h]
    · simp [handleFileDownload, hgf, hr, hexp]
    · simp [handleFileDownload, hgf, hr, hblob, show ¬(r0.expiresAt < now) by omega]

/-- C5 witness: the empty identifier is one of the collapsed cases. -/
theorem C5_witness :
    (("" : String) == "" || ("" : String).data.contains '/'
        || ("" : String).data.contains '\\') = true ∧
    handleFileDownload ⟨[], [], []⟩ "" 0 = .notFound :=
  ⟨by decide, C5_resolve_file_notfound_collapsed ⟨[], [], []⟩ "" 0 (Or.inl (by decide))⟩

/-- C4: the blob write precedes the metadata insert.  If `os.Create` fails
the state is untouched and the outcome is the storage error; if `io.Copy`
fails the outcome is the storage error and the files table is unchanged (at
worst the truncated blob remains); and when the insert itself fails on a
duplicate key, the blob has already been written while the files table is
still unchanged — an orphan blob, never a record without a blob. -/
theorem C4_blob_written_before_record
    (step out : Nat → Nat) (tseed : Int → Nat) (st : ServerState)
    (rngIn : Nat) (now : Int) (filename : String) (content : List Nat)
    (long : Bool) (copyFlag : Bool)
    (hdup : st.files.any (fun r0 =>
        r0.path == (generateRandomString step out tseed rngIn now 8).1
          ++ filepathExt filename) = true) :
    (handleFileUpload step out tseed st rngIn now filename content long false copyFlag
        = (.couldNotSave, st, (generateRandomString step out tseed rngIn now 8).2)) ∧
    ((handleFileUpload step out tseed st rngIn now filename content long true false).1
        = .couldNotSave ∧
     (handleFileUpload step out tseed st rngIn now filename content long true false).2.1.files
        = st.files) ∧
    ((handleFileUpload step out tseed st rngIn now filename content long true true).1
        = .databaseError ∧
     (handleFileUpload step out tseed st rngIn now filename content long true true).2.1.files
        = st.files ∧
     lookupBlob
        (handleFileUpload step out tseed st rngIn now filename content long true true).2.1.blobs
        ((generateRandomString step out tseed rngIn now 8).1 ++ filepathExt filename)
        = some content) := by
  refine ⟨rfl, ⟨rfl, rfl⟩, ?_, ?_, ?_⟩ <;>
    simp [handleFileUpload, hdup, lookupBlob_blobWrite_self]

/-- C4 witness: a colliding identifier at a concrete state exercises all
three conjuncts. -/
theorem C4_witness :
    ((⟨[⟨"abcdefgh", "x", 0⟩], [], []⟩ : ServerState).files.any (fun r0 =>
        r0.path == (generateRandomString idStep idOut natSeed 0 0 8).1
          ++ filepathExt "f") = true) ∧
    (handleFileUpload idStep idOut natSeed ⟨[⟨"abcdefgh", "x", 0⟩], [], []⟩ 0 0 "f" [9]
        false true true).1 = .databaseError :=
  ⟨by decide,
   (C4_blob_written_before_record idStep idOut natSeed ⟨[⟨"abcdefgh", "x", 0⟩], [], []⟩
      0 0 "f" [9] false true (by decide)).2.2.1⟩

/-- C1: the code does not retry a duplicate-key insert.  When the generated
identifier already exists as a primary key, `handleFileUpload` answers the
500 database error and `handleURLShorten` the 500 internal error, each
immediately: the returned random-source state is the one left by the single
generation (no identifier was regenerated) and no row was inserted.  The
duplicate-key failure is therefore surfaced to the caller, contradicting
the claimed bounded retry that surfaces only ExhaustedRetries. -/
theorem C1_duplicate_key_surfaced_not_retried
    (step out : Nat → Nat) (tseed : Int → Nat) (st : ServerState)
    (rngIn : Nat) (now : Int) (filename : String) (content : List Nat)
    (long : Bool) (url : String)
    (hfdup : st.files.any (fun r0 =>
        r0.path == (generateRandomString step out tseed rngIn now 8).1
          ++ filepathExt filename) = true)
    (hurl : (trimSpace url == "") = false)
    (hudup : st.urls.any (fun r0 =>
        r0.id == (generateRandomString step out tseed rngIn now 8).1) = true) :
    handleFileUpload step out tseed st rngIn now filename content long true true
      = (.databaseError,
         { st with blobs := (blobWrite st.blobs
             ((generateRandomString step out tseed rngIn now 8).1 ++ filepathExt filename)
             content) },
         (generateRandomString step out tseed rngIn now 8).2) ∧
    handleURLShorten step out tseed st rngIn now url long
      = (.internalError, st, (generateRandomString step out tseed rngIn now 8).2) := by
  constructor
  · simp [handleFileUpload, hfdup]
  · simp [handleURLShorten, hurl, hudup]

/-- C1 witness: concrete colliding uploads and shortenings receive the
surfaced errors. -/
theorem C1_witness :
    handleFileUpload idStep idOut natSeed
        ⟨[⟨"abcdefgh", "x", 0⟩], [⟨"abcdefgh", "y", 0⟩], []⟩ 0 0 "f" [9] false true true
      = (.databaseError,
         ⟨[⟨"abcdefgh", "x", 0⟩], [⟨"abcdefgh", "y", 0⟩], [("abcdefgh", [9])]⟩, 8) ∧
    handleURLShorten idStep idOut natSeed
        ⟨[⟨"abcdefgh", "x", 0⟩], [⟨"abcdefgh", "y", 0⟩], []⟩ 0 0 "https://e" false
      = (.internalError, ⟨[⟨"abcdefgh", "x", 0⟩], [⟨"abcdefgh", "y", 0⟩], []⟩, 8) :=
  C1_duplicate_key_surfaced_not_retried idStep idOut natSeed
    ⟨[⟨"abcdefgh", "x", 0⟩], [⟨"abcdefgh", "y", 0⟩], []⟩ 0 0 "f" [9] false "https://e"
    (by decide) (by decide) (by decide)

/-- C10: for every deterministic random source and every client-supplied
filename, the identifier `generateRandomString(8) + filepath.Ext(filename)`
is non-empty, its first component is exactly 8 characters of the 62-symbol
alphabet, `filepath.Ext` never contains a path separator, and hence the
whole blob name contains no path separator: it is a single path segment
inside the upload directory, with no validation of the filename needed. -/
theorem C10_upload_identifier_single_segment
    (step out : Nat → Nat) (tseed : Int → Nat) (rngIn : Nat) (now : Int)
    (filename : String) :
    (generateRandomString step out tseed rngIn now 8).1.data.length = 8 ∧
    (∀ c ∈ (generateRandomString step out tseed rngIn now 8).1.data, c ∈ allowedChars) ∧
    (∀ c ∈ (filepathExt filename).data, isPathSeparator c = false) ∧
    ((generateRandomString step out tseed rngIn now 8).1 ++ filepathExt filename) ≠ "" ∧
    (∀ c ∈ ((generateRandomString step out tseed rngIn now 8).1
        ++ filepathExt filename).data, isPathSeparator c = false) := by
  have hlen : (generateRandomString step out tseed rngIn now 8).1.data.length = 8 :=
    drawChars_length step out 8 (tseed now)
  have hmem : ∀ c ∈ (generateRandomString step out tseed rngIn now 8).1.data,
      c ∈ allowedChars := drawChars_mem step out 8 (tseed now)
  have hdata : ((generateRandomString step out tseed rngIn now 8).1
      ++ filepathExt filename).data
      = (generateRandomString step out tseed rngIn now 8).1.data
        ++ (filepathExt filename).data := rfl
  refine ⟨hlen, hmem, filepathExt_no_separator filename, ?_, ?_⟩
  · intro h
    have h0 : ((generateRandomString step out tseed rngIn now 8).1
        ++ filepathExt filename).data.length = 0 := by rw [h]; rfl
    rw [hdata, List.length_append, hlen] at h0
    omega
  · intro c hc
    rw [hdata] at hc
    rcases List.mem_append.mp hc with h | h
    · have : c ∈ allowedChars := hmem c h
      revert this
      have : ∀ d ∈ allowedChars, isPathSeparator d = false := by decide
      intro hmem2
      exact this c hmem2
    · exact filepathExt_no_separator filename c h

/-- C10 witness: a concrete character of the generated identifier lies in
the alphabet, and a concrete extension character is not a separator. -/
theorem C10_witness :
    ('a' ∈ allowedChars) ∧ isPathSeparator 't' = false :=
  ⟨(C10_upload_identifier_single_segment idStep idOut natSeed 0 0 "notes.txt").2.1
      'a' (by decide),
   (C10_upload_identifier_single_segment idStep idOut natSeed 0 0 "notes.txt").2.2.1
      't' (by decide)⟩

/-- C2 witness: with a file row expiring at 100 and a URL row expired at 50,
a read at time 60 serves the file and answers NotFound for the URL. -/
theorem C2_witness :
    (handleFileDownload ⟨[⟨"p1", "f1", 100⟩], [⟨"u1", "x", 50⟩], [("p1", [7])]⟩ "p1" 60
        = .served "f1" "application/octet-stream" [7]) ∧
    (handleShortURLRedirect ⟨[⟨"p1", "f1", 100⟩], [⟨"u1", "x", 50⟩], [("p1", [7])]⟩ "u1" 60
        = .notFound) := by
  have h := C2_amended_live_iff_at_most_expiry
      ⟨[⟨"p1", "f1", 100⟩], [⟨"u1", "x", 50⟩], [("p1", [7])]⟩ "p1" "u1" 60
      ⟨"p1", "f1", 100⟩ ⟨"u1", "x", 50⟩ [7]
      (by decide) (by decide) (by decide) (by decide)
  exact ⟨h.1.mpr (by decide), h.2.2.2.mpr (by decide)⟩

/-! ### Sweeper lemmas -/

theorem lookupBlob_blobRemove_self (bs : List (String × List Nat)) (p : String) :
    lookupBlob (blobRemove bs p) p = none := by
  unfold lookupBlob blobRemove
  rw [List.find?_eq_none.mpr]
  · rfl
  · intro x hx
    have hkeep := List.of_mem_filter hx
    simp only [Bool.not_eq_true'] at hkeep
    simp [hkeep]

theorem lookupBlob_blobRemove_other (bs : List (String × List Nat)) (p q : String)
    (h : q ≠ p) : lookupBlob (blobRemove bs p) q = lookupBlob bs q := by
  induction bs with
  | nil => rfl
  | cons b rest ih =>
    by_cases hb : (b.1 == p) = true
    · have hb1 : b.1 = p := by simpa using hb
      have hbq : (b.1 == q) = false := by
        rw [hb1]
        exact beq_false_of_ne fun hpq => h hpq.symm
      simpa [blobRemove, List.filter_cons, hb, lookupBlob, List.find?, hbq] using ih
    · have hbf : (b.1 == p) = false := by simpa using hb
      cases hq : (b.1 == q) with
      | true => simp [blobRemove, List.filter_cons, hbf, lookupBlob, List.find?, hq]
      | false =>
        simpa [blobRemove, List.filter_cons, hbf, lookupBlob, List.find?, hq] using ih

theorem removeExpiredBlobs_none (f : SweepFailures) (ps : List String)
    (bs : List (String × List Nat)) (q : String) (h : lookupBlob bs q = none) :
    lookupBlob (removeExpiredBlobs f ps bs) q = none := by
  induction ps generalizing bs with
  | nil => exact h
  | cons p rest ih =>
    unfold removeExpiredBlobs
    by_cases hf : f.removeFails p = true
    · simp only [hf, if_true]
      exact ih _ h
    · have hff : f.removeFails p = false := by simpa using hf
      simp only [hff, Bool.false_eq_true, if_false]
      refine ih _ ?_
      by_cases hq : q = p
      · rw [hq]; exact lookupBlob_blobRemove_self bs p
      · rw [lookupBlob_blobRemove_other bs p q hq]; exact h

theorem removeExpiredBlobs_removed (f : SweepFailures) (ps : List String)
    (bs : List (String × List Nat)) (p : String)
    (hp : p ∈ ps) (hf : f.removeFails p = false) :
    lookupBlob (removeExpiredBlobs f ps bs) p = none := by
  induction ps generalizing bs with
  | nil => simp at hp
  | cons a rest ih =>
    unfold removeExpiredBlobs
    rcases List.mem_cons.mp hp with h | h
    · rw [← h, hf]
      simp only [Bool.false_eq_true, if_false]
      exact removeExpiredBlobs_none f rest _ p (lookupBlob_blobRemove_self bs p)
    · exact ih _ h

theorem removeExpiredBlobs_not_mem (f : SweepFailures) (ps : List String)
    (bs : List (String × List Nat)) (q : String) (h : q ∉ ps) :
    lookupBlob (removeExpiredBlobs f ps bs) q = lookupBlob bs q := by
  induction ps generalizing bs with
  | nil => rfl
  | cons a rest ih =>
    have hqa : q ≠ a := fun he => h (by rw [he]; exact List.mem_cons_self a rest)
    have hrest : q ∉ rest := fun hr => h (List.mem_cons_of_mem _ hr)
    unfold removeExpiredBlobs
    by_cases hfa : f.removeFails a = true
    · simp only [hfa, if_true]
      exact ih _ hrest
    · have hff : f.removeFails a = false := by simpa using hfa
      simp only [hff, Bool.false_eq_true, if_false]
      rw [ih (blobRemove bs a) hrest, lookupBlob_blobRemove_other bs a q hqa]

theorem filter_keep_live {α : Type} (key : α → Int) (l : List α) (now : Int) :
    l.filter (fun r0 => !(decide (key r0 ≤ now)))
      = l.filter (fun r0 => decide (now < key r0)) := by
  induction l with
  | nil => rfl
  | cons a rest ih =>
    by_cases ha : key a ≤ now
    · simp only [List.filter_cons]
      rw [show (!(decide (key a ≤ now))) = false by simp [ha],
          show (decide (now < key a)) = false by simp; omega, ih]
    · simp only [List.filter_cons]
      rw [show (!(decide (key a ≤ now))) = true by simp [ha],
          show (decide (now < key a)) = true by simp; omega, ih]

/-- C6: one sweeper iteration whose SELECT succeeds issues, in order, the
expired-file listing, one best-effort blob removal per listed path, the bulk
delete of expired file rows, and the bulk delete of expired URL rows; the
bulk row deletions happen whatever the blob-removal failures, an expired
blob whose own removal succeeds is gone while unexpired blobs are untouched,
and no failure pattern stops the loop: the next interval always runs on the
state the iteration produced. -/
theorem C6_sweeper_order_and_resilience
    (st : ServerState) (now : Int) (f : SweepFailures)
    (nows : Nat → Int) (fails : Nat → SweepFailures) (n : Nat) (st0 : ServerState)
    (hq : f.queryFails = false)
    (hdf : f.deleteFilesFails = false) (hdu : f.deleteUrlsFails = false) :
    (cleanupIteration st now f).2
      = .listExpired
          :: (st.files.filter (fun r0 => decide (r0.expiresAt ≤ now))).map
               (fun r0 => SweepOp.removeBlob r0.path)
          ++ [.deleteFileRows, .deleteURLRows] ∧
    (cleanupIteration st now f).1.files
      = st.files.filter (fun r0 => decide (now < r0.expiresAt)) ∧
    (cleanupIteration st now f).1.urls
      = st.urls.filter (fun r0 => decide (now < r0.expiresAt)) ∧
    (∀ p, p ∈ (st.files.filter (fun r0 => decide (r0.expiresAt ≤ now))).map
            (fun r0 => r0.path) →
        f.removeFails p = false →
        lookupBlob (cleanupIteration st now f).1.blobs p = none) ∧
    (∀ p, p ∉ (st.files.filter (fun r0 => decide (r0.expiresAt ≤ now))).map
            (fun r0 => r0.path) →
        lookupBlob (cleanupIteration st now f).1.blobs p = lookupBlob st.blobs p) ∧
    cleanupExpiredData nows fails (n + 1) st0
      = cleanupExpiredData (fun k => nows (k + 1)) (fun k => fails (k + 1)) n
          (cleanupIteration st0 (nows 0) (fails 0)).1 := by
  have hred : cleanupIteration st now f
      = ({ files := st.files.filter (fun r0 => !(decide (r0.expiresAt ≤ now))),
           urls := st.urls.filter (fun r0 => !(decide (r0.expiresAt ≤ now))),
           blobs := removeExpiredBlobs f
             ((st.files.filter (fun r0 => decide (r0.expiresAt ≤ now))).map
               (fun r0 => r0.path)) st.blobs },
         .listExpired
           :: ((st.files.filter (fun r0 => decide (r0.expiresAt ≤ now))).map
                (fun r0 => r0.path)).map SweepOp.removeBlob
           ++ [.deleteFileRows, .deleteURLRows]) := by
    simp only [cleanupIteration, hq, hdf, hdu, Bool.false_eq_true, if_false]
  refine ⟨?_, ?_, ?_, ?_, ?_, rfl⟩
  · rw [hred]; simp [List.map_map]
  · rw [hred]; exact filter_keep_live _ st.files now
  · rw [hred]; exact filter_keep_live _ st.urls now
  · intro p hp hfp
    rw [hred]
    exact removeExpiredBlobs_removed f _ st.blobs p hp hfp
  · intro p hp
    rw [hred]
    exact removeExpiredBlobs_not_mem f _ st.blobs p hp

/-- C6 witness: at a concrete state with one expired file, one expired URL
and its blob, the iteration's trace is the four ordered operations, the
expired rows and blob are gone, and the live file row survives. -/
theorem C6_witness :
    ((cleanupIteration ⟨[⟨"p1", "f1", 5⟩, ⟨"p2", "f2", 50⟩], [⟨"u1", "x", 5⟩],
        [("p1", [1])]⟩ 10 noSweepFailures).2
      = [.listExpired, .removeBlob "p1", .deleteFileRows, .deleteURLRows]) ∧
    ((cleanupIteration ⟨[⟨"p1", "f1", 5⟩, ⟨"p2", "f2", 50⟩], [⟨"u1", "x", 5⟩],
        [("p1", [1])]⟩ 10 noSweepFailures).1.files = [⟨"p2", "f2", 50⟩]) ∧
    (lookupBlob (cleanupIteration ⟨[⟨"p1", "f1", 5⟩, ⟨"p2", "f2", 50⟩], [⟨"u1", "x", 5⟩],
        [("p1", [1])]⟩ 10 noSweepFailures).1.blobs "p1" = none) := by
  have h := C6_sweeper_order_and_resilience
      ⟨[⟨"p1", "f1", 5⟩, ⟨"p2", "f2", 50⟩], [⟨"u1", "x", 5⟩], [("p1", [1])]⟩ 10
      noSweepFailures (fun _ => 0) (fun _ => noSweepFailures) 0 ⟨[], [], []⟩
      rfl rfl rfl
  refine ⟨?_, ?_, h.2.2.2.1 "p1" (by decide) rfl⟩
  · rw [h.1]; rfl
  · rw [h.2.1]; rfl

/-- C7: a successful Upload stores `expires_at = now + 30 days` when the
long flag is set and `now + config.FileExpiry` otherwise; a successful
Shorten stores `now + 30 days` or `now + config.URLExpiry` likewise; and the
long-TTL scenario holds: a URL shortened with the long flag at time 0 still
resolves 29 days later and answers NotFound 31 days later. -/
theorem C7_expiry_is_now_plus_selected_ttl
    (step out : Nat → Nat) (tseed : Int → Nat) (st : ServerState)
    (rngIn : Nat) (now : Int) (filename : String) (content : List Nat)
    (url : String) (long : Bool)
    (hf : st.files.any (fun r0 =>
        r0.path == (generateRandomString step out tseed rngIn now 8).1
          ++ filepathExt filename) = false)
    (hurl : (trimSpace url == "") = false)
    (hu : st.urls.any (fun r0 =>
        r0.id == (generateRandomString step out tseed rngIn now 8).1) = false) :
    (handleFileUpload step out tseed st rngIn now filename content long true true).2.1.files
      = st.files
        ++ [{ path := (generateRandomString step out tseed rngIn now 8).1
                ++ filepathExt filename,
              filename := filename,
              expiresAt := now + (if long then 30 * 24 * hour else config.fileExpiry) }] ∧
    (handleURLShorten step out tseed st rngIn now url long).2.1.urls
      = st.urls
        ++ [{ id := (generateRandomString step out tseed rngIn now 8).1,
              originalURL := url,
              expiresAt := now + (if long then 30 * 24 * hour else config.urlExpiry) }] ∧
    (handleShortURLRedirect
        (handleURLShorten idStep idOut natSeed ⟨[], [], []⟩ 0 0
          "https://example.com/x" true).2.1
        "abcdefgh" (29 * 24 * hour) = .redirect "https://example.com/x") ∧
    (handleShortURLRedirect
        (handleURLShorten idStep idOut natSeed ⟨[], [], []⟩ 0 0
          "https://example.com/x" true).2.1
        "abcdefgh" (31 * 24 * hour) = .notFound) := by
  refine ⟨?_, ?_, by decide, by decide⟩
  · simp [handleFileUpload, hf]
  · simp [handleURLShorten, hurl, hu]

/-- C7 witness: a fresh upload and shortening at time 0 with the long flag
store rows expiring exactly 30 days later. -/
theorem C7_witness :
    (handleFileUpload idStep idOut natSeed ⟨[], [], []⟩ 0 0 "n.txt" [1] true true true).2.1.files
      = [] ++ [{ path := (generateRandomString idStep idOut natSeed 0 0 8).1
                   ++ filepathExt "n.txt",
                 filename := "n.txt",
                 expiresAt := 0 + (if true then 30 * 24 * hour else config.fileExpiry) }] ∧
    (handleURLShorten idStep idOut natSeed ⟨[], [], []⟩ 0 0 "https://a" true).2.1.urls
      = [] ++ [{ id := (generateRandomString idStep idOut natSeed 0 0 8).1,
                 originalURL := "https://a",
                 expiresAt := 0 + (if true then 30 * 24 * hour else config.urlExpiry) }] := by
  have h := C7_expiry_is_now_plus_selected_ttl idStep idOut natSeed ⟨[], [], []⟩ 0 0
      "n.txt" [1] "https://a" true (by decide) (by decide) (by decide)
  exact ⟨h.1, h.2.1⟩

end Goup
